import Mathlib

/-!
Verification development for the meshtext repository: a shallow embedding of
its glyph-outline flattening, contour triangulation, mesh assembly, glyph
cache and text-section layout, together with theorems settling the spec
claims. Machine floats (f32) are modelled by exact rationals; Rust `Vec`s by
`List`; `HashMap` by an association list with replace-on-insert semantics;
fallible Rust paths by `Except`, and Rust panics by `Option` (`none` =
panic). The external constrained-Delaunay triangulator and the font face are
parameters of the embedding, specified only at their interface boundary.
-/

set_option maxHeartbeats 1600000

namespace Meshtext

/-- A 2D point `(f32, f32)` from `outline_builder.rs` / `glyph_outline.rs`,
modelled over exact rationals. -/
abbrev PointQ : Type := ℚ × ℚ

/-- A 3-component vector (`glam::Vec3A`) over exact rationals. -/
structure Vec3Q where
  x : ℚ
  y : ℚ
  z : ℚ
  deriving DecidableEq, Repr

/-- A 4-component vector (`glam::Vec4`) over exact rationals. -/
structure Vec4Q where
  x : ℚ
  y : ℚ
  z : ℚ
  w : ℚ
  deriving DecidableEq, Repr

/-- Column-major 4x4 matrix (`glam::Mat4`): four column vectors. -/
structure Mat4Q where
  xAxis : Vec4Q
  yAxis : Vec4Q
  zAxis : Vec4Q
  wAxis : Vec4Q
  deriving DecidableEq, Repr

/-- Componentwise scaling of a column vector. -/
def Vec4Q.scale (v : Vec4Q) (s : ℚ) : Vec4Q := ⟨v.x * s, v.y * s, v.z * s, v.w * s⟩

/-- Componentwise addition of column vectors. -/
def Vec4Q.add (a b : Vec4Q) : Vec4Q := ⟨a.x + b.x, a.y + b.y, a.z + b.z, a.w + b.w⟩

/-- `Mat4 * Vec4` as in glam: linear combination of the columns. -/
def Mat4Q.mulVec4 (m : Mat4Q) (v : Vec4Q) : Vec4Q :=
  (((m.xAxis.scale v.x).add (m.yAxis.scale v.y)).add (m.zAxis.scale v.z)).add
    (m.wAxis.scale v.w)

/-- Matrix product `A * B` (columns of the result are `A` applied to the
columns of `B`). -/
def Mat4Q.mul (a b : Mat4Q) : Mat4Q :=
  ⟨a.mulVec4 b.xAxis, a.mulVec4 b.yAxis, a.mulVec4 b.zAxis, a.mulVec4 b.wAxis⟩

/-- `glam::Mat4::IDENTITY`. -/
def mat4Identity : Mat4Q :=
  ⟨⟨1, 0, 0, 0⟩, ⟨0, 1, 0, 0⟩, ⟨0, 0, 1, 0⟩, ⟨0, 0, 0, 1⟩⟩

/-- `glam::Mat4::from_translation`. -/
def mat4FromTranslation (t : Vec3Q) : Mat4Q :=
  ⟨⟨1, 0, 0, 0⟩, ⟨0, 1, 0, 0⟩, ⟨0, 0, 1, 0⟩, ⟨t.x, t.y, t.z, 1⟩⟩

/-- `glam::Mat4::transform_point3a`: multiply with homogeneous coordinate 1
and drop the fourth component (the matrix is assumed affine, as in glam). -/
def Mat4Q.transformPoint3a (m : Mat4Q) (p : Vec3Q) : Vec3Q :=
  let r := m.mulVec4 ⟨p.x, p.y, p.z, 1⟩
  ⟨r.x, r.y, r.z⟩

/-- Componentwise minimum (`glam::Vec3A::min`). -/
def Vec3Q.vmin (a b : Vec3Q) : Vec3Q := ⟨min a.x b.x, min a.y b.y, min a.z b.z⟩

/-- Componentwise maximum (`glam::Vec3A::max`). -/
def Vec3Q.vmax (a b : Vec3Q) : Vec3Q := ⟨max a.x b.x, max a.y b.y, max a.z b.z⟩

/-- `BoundingBox` from `types/bounding_box.rs`: maximum and minimum corner. -/
structure BBoxQ where
  max : Vec3Q
  min : Vec3Q
  deriving DecidableEq, Repr

/-- `BoundingBox::empty`: the all-zero box. -/
def BBoxQ.empty : BBoxQ := ⟨⟨0, 0, 0⟩, ⟨0, 0, 0⟩⟩

/-- `BoundingBox::combine`: componentwise min of the minima and max of the
maxima. -/
def BBoxQ.combine (a b : BBoxQ) : BBoxQ :=
  ⟨Vec3Q.vmax a.max b.max, Vec3Q.vmin a.min b.min⟩

/-- `BoundingBox::transform`: transform both corners as points. -/
def BBoxQ.transformBy (b : BBoxQ) (m : Mat4Q) : BBoxQ :=
  ⟨m.transformPoint3a b.max, m.transformPoint3a b.min⟩

/-- `ttf_parser::Rect`: the tight bounding rectangle reported by the font,
in raw integer font units. -/
structure RectM where
  xMin : Int
  yMin : Int
  xMax : Int
  yMax : Int
  deriving DecidableEq, Repr

/-- `QualitySettings` from `types/quality_settings.rs`. -/
structure QualityM where
  quadInterpolationSteps : Nat
  cubicInterpolationSteps : Nat
  deriving DecidableEq, Repr

/-- The closed sum of error kinds from `error.rs`: `GlyphOutlineError`,
`GlyphTriangulationError` (carrying the triangulator's message) and
`VertexError`. -/
inductive ErrM where
  | glyphOutline : ErrM
  | glyphTriangulation : String → ErrM
  | vertex : ErrM
  deriving DecidableEq, Repr

/-- `GlyphOutline` from `types/glyph_outline.rs`: contours of point indices
over a point cloud. -/
structure GlyphOutlineM where
  contours : List (List Nat)
  points : List PointQ
  deriving DecidableEq

/-- Triangle index triple (`[u32; 3]` in `raster_to_mesh.rs`). -/
abbrev TriIdx : Type := Nat × Nat × Nat

/-- The external constrained-Delaunay triangulation capability (spec section
6): a point cloud and a closed edge set to triangle index triples, or a
typed failure carrying a diagnostic message. -/
def Triangulator := List PointQ → List (Nat × Nat) → Except String (List TriIdx)

/-! ### Outline builder (`util/outline_builder.rs`) -/

/-- `point_on_line`: linear interpolation `a - (a - b) * t`. -/
def point_on_line (a b : PointQ) (t : ℚ) : PointQ :=
  (a.1 - (a.1 - b.1) * t, a.2 - (a.2 - b.2) * t)

/-- `point_on_quad`: De Casteljau evaluation of a quadratic from `p0`
through `p1` to `p2` at parameter `t`. -/
def point_on_quad (p0 p1 p2 : PointQ) (t : ℚ) : PointQ :=
  let a := point_on_line p0 p1 t
  let b := point_on_line p1 p2 t
  point_on_line a b t

/-- `point_on_cubic`: nested quadratic interpolation for a cubic at `t`. -/
def point_on_cubic (p0 p1 p2 p3 : PointQ) (t : ℚ) : PointQ :=
  let a := point_on_quad p0 p1 p2 t
  let b := point_on_quad p1 p2 p3 t
  point_on_line a b t

/-- The mutable state of `GlyphOutlineBuilder`. -/
structure BuilderM where
  contours : List (List Nat)
  currentPoint : PointQ
  fontHeight : ℚ
  index : Nat
  points : List PointQ
  quality : QualityM
  startIndex : Nat
  deriving DecidableEq

/-- `GlyphOutlineBuilder::new`. -/
def BuilderM.new (fontHeight : ℚ) (quality : QualityM) : BuilderM :=
  { contours := [], currentPoint := (0, 0), fontHeight := fontHeight,
    index := 0, points := [], quality := quality, startIndex := 0 }

/-- `GlyphOutlineBuilder::get_glyph_outline`: read-only copy of the
accumulated outline. -/
def BuilderM.getGlyphOutline (b : BuilderM) : GlyphOutlineM :=
  { contours := b.contours, points := b.points }

/-- `GlyphOutlineBuilder::add_point`: set the pen point to the raw point and
append the point divided by the font height; bump the index counter. -/
def BuilderM.addPoint (b : BuilderM) (p : PointQ) : BuilderM :=
  { b with
    currentPoint := p,
    points := b.points ++ [(p.1 / b.fontHeight, p.2 / b.fontHeight)],
    index := b.index + 1 }

/-- Push an element onto the last inner list (`contours.last_mut().unwrap()
.push(i)`); `none` models the panic when there is no contour. -/
def pushToLastContour : List (List Nat) → Nat → Option (List (List Nat))
  | [], _ => none
  | [c], i => some [c ++ [i]]
  | c :: c2 :: rest, i => (pushToLastContour (c2 :: rest) i).map (c :: ·)

/-- `move_to`: start a new contour at the current index and add the point. -/
def BuilderM.moveTo (b : BuilderM) (x y : ℚ) : BuilderM :=
  let b := { b with startIndex := b.index, contours := b.contours ++ [[b.index]] }
  b.addPoint (x, y)

/-- `line_to`: append the running index to the current contour and add the
point; `none` models the panic when no contour was started. -/
def BuilderM.lineTo (b : BuilderM) (x y : ℚ) : Option BuilderM :=
  (pushToLastContour b.contours b.index).map fun cs =>
    BuilderM.addPoint { b with contours := cs } (x, y)

/-- One iteration of the `quad_to` loop at step number `step`: the sample is
evaluated from the builder's *current* pen point (re-read each iteration, as
the source does) and emitted via `line_to`. -/
def BuilderM.quadStep (b : BuilderM) (p1 p2 : PointQ) (step : Nat) : Option BuilderM :=
  let t : ℚ := (step : ℚ) / (b.quality.quadInterpolationSteps : ℚ)
  let p := point_on_quad b.currentPoint p1 p2 t
  b.lineTo p.1 p.2

/-- Run the `for step in 1..=steps` loop of `quad_to` for the steps in the
given list. -/
def BuilderM.quadLoop (p1 p2 : PointQ) : List Nat → BuilderM → Option BuilderM
  | [], b => some b
  | step :: rest, b => (b.quadStep p1 p2 step).bind (BuilderM.quadLoop p1 p2 rest)

/-- `quad_to`: subdivide the quadratic through `(x1, y1)` to `(x, y)` over
`quad_interpolation_steps` parameter increments, skipping the `t = 0`
sample. -/
def BuilderM.quadTo (b : BuilderM) (x1 y1 x y : ℚ) : Option BuilderM :=
  BuilderM.quadLoop (x1, y1) (x, y)
    ((List.range b.quality.quadInterpolationSteps).map (· + 1)) b

/-! ### Contour triangulation (`util/raster_to_mesh.rs`) -/

/-- The edges a single contour contributes: one edge per consecutive pair of
its indices (`c.iter().zip(c.iter().skip(1))`). -/
def contourEdges (c : List Nat) : List (Nat × Nat) := c.zip c.tail

/-- The edge-collection loop of `get_glyph_area_triangulation`: per contour,
append its edges, then compare the first appended edge's origin with the
last appended edge's terminal and fail with the open-contour error on
mismatch. -/
def collectEdges : List (List Nat) → List (Nat × Nat) →
    Except ErrM (List (Nat × Nat))
  | [], acc => .ok acc
  | c :: rest, acc =>
    let acc2 := acc ++ contourEdges c
    match acc2[acc.length]? with
    | none => collectEdges rest acc2
    | some start =>
      match acc2.getLast? with
      | none => collectEdges rest acc2
      | some last =>
        if start.1 ≠ last.2 then
          .error (ErrM.glyphTriangulation "Open contour.")
        else collectEdges rest acc2

/-- `get_glyph_area_triangulation`: build the complete edge set of all
contours (failing on an open contour), then call the external triangulator,
wrapping its failure as a triangulation error. -/
def get_glyph_area_triangulation (tri : Triangulator) (outline : GlyphOutlineM) :
    Except ErrM (List TriIdx × List (Nat × Nat)) :=
  match collectEdges outline.contours [] with
  | .error e => .error e
  | .ok edges =>
    match tri outline.points edges with
    | .error err => .error (ErrM.glyphTriangulation err)
    | .ok triangles => .ok (triangles, edges)

/-- Indexing into the point cloud (`points[i]`); Rust panics when `i` is out
of range, the model totalizes with the origin and theorems are only invoked
with in-range indices. -/
def pointAt (points : List PointQ) (i : Nat) : PointQ := points.getD i (0, 0)

/-- `triangulate_between_edges`: for every contour edge append the two wall
triangles connecting the front cap (`z = 0.5`) and back cap (`z = -0.5`)
copies of its endpoints. -/
def triangulate_between_edges (vertices : List Vec3Q) (points : List PointQ)
    (edges : List (Nat × Nat)) : List Vec3Q :=
  vertices ++ edges.flatMap fun e =>
    [⟨(pointAt points e.1).1, (pointAt points e.1).2, (1 : ℚ)/2⟩,
     ⟨(pointAt points e.2).1, (pointAt points e.2).2, (1 : ℚ)/2⟩,
     ⟨(pointAt points e.1).1, (pointAt points e.1).2, -(1 : ℚ)/2⟩,
     ⟨(pointAt points e.2).1, (pointAt points e.2).2, -(1 : ℚ)/2⟩,
     ⟨(pointAt points e.1).1, (pointAt points e.1).2, -(1 : ℚ)/2⟩,
     ⟨(pointAt points e.2).1, (pointAt points e.2).2, (1 : ℚ)/2⟩]

/-- `triangulate_between_edges_indexed`: `flat_count` is half the current
vertex count; per contour edge append the six wall indices. -/
def triangulate_between_edges_indexed (vertices : List Vec3Q)
    (indices : List Nat) (edges : List (Nat × Nat)) : List Nat :=
  let flatCount := vertices.length / 2
  indices ++ edges.flatMap fun e =>
    [e.1, e.2, flatCount + e.2, flatCount + e.1, e.1, flatCount + e.2]

/-- `raster_to_mesh`: non-indexed assembly. Flat: three `z = 0` vertices per
triangle. Extruded: front cap at `z = 0.5`, back cap at `z = -0.5` with
reversed winding, then side walls along the contour edges. -/
def raster_to_mesh (tri : Triangulator) (outline : GlyphOutlineM)
    (flat : Bool) : Except ErrM (List Vec3Q) :=
  let points := outline.points
  match get_glyph_area_triangulation tri outline with
  | .error e => .error e
  | .ok (triangles, edges) =>
    if flat then
      .ok <| triangles.flatMap fun i =>
        [⟨(pointAt points i.1).1, (pointAt points i.1).2, 0⟩,
         ⟨(pointAt points i.2.1).1, (pointAt points i.2.1).2, 0⟩,
         ⟨(pointAt points i.2.2).1, (pointAt points i.2.2).2, 0⟩]
    else
      let vertices := triangles.flatMap fun i =>
        [⟨(pointAt points i.1).1, (pointAt points i.1).2, (1 : ℚ)/2⟩,
         ⟨(pointAt points i.2.1).1, (pointAt points i.2.1).2, (1 : ℚ)/2⟩,
         ⟨(pointAt points i.2.2).1, (pointAt points i.2.2).2, (1 : ℚ)/2⟩,
         ⟨(pointAt points i.2.2).1, (pointAt points i.2.2).2, -(1 : ℚ)/2⟩,
         ⟨(pointAt points i.2.1).1, (pointAt points i.2.1).2, -(1 : ℚ)/2⟩,
         ⟨(pointAt points i.1).1, (pointAt points i.1).2, -(1 : ℚ)/2⟩]
      .ok (triangulate_between_edges vertices points edges)

/-- `raster_to_mesh_indexed`: indexed assembly. Flat: the point cloud at
`z = 0` plus the triangle indices as-is. Extruded: the point cloud twice
(`z = 0.5` then `z = -0.5`), cap triangles with the back copy offset by the
flat point count and reversed winding, then indexed side walls. -/
def raster_to_mesh_indexed (tri : Triangulator) (outline : GlyphOutlineM)
    (flat : Bool) : Except ErrM (List Vec3Q × List Nat) :=
  let points := outline.points
  match get_glyph_area_triangulation tri outline with
  | .error e => .error e
  | .ok (triangles, edges) =>
    if flat then
      let vertices := points.map fun p => Vec3Q.mk p.1 p.2 0
      let indices := triangles.flatMap fun i => [i.1, i.2.1, i.2.2]
      .ok (vertices, indices)
    else
      let front := points.map fun p => Vec3Q.mk p.1 p.2 ((1 : ℚ)/2)
      let flatCount := front.length
      let vertices := front ++ points.map fun p => Vec3Q.mk p.1 p.2 (-(1 : ℚ)/2)
      let indices := triangles.flatMap fun i =>
        [i.1, i.2.1, i.2.2, i.2.2 + flatCount, i.2.1 + flatCount, i.1 + flatCount]
      .ok (vertices, triangulate_between_edges_indexed vertices indices edges)

/-! ### Raw-buffer conversions (`util/glam_conversions.rs`) and output types
(`types/mesh_text.rs`, `types/indexed_mesh_text.rs`, `util/text_mesh.rs`) -/

/-- `glam_vecs_from_raw`: interpret a raw float list as XYZ triples. Rust
iterates `chunks(3)` and indexes components `0..3`, panicking on an
incomplete final chunk; the panic is modelled by `none`. -/
def glam_vecs_from_raw : List ℚ → Option (List Vec3Q)
  | [] => some []
  | x :: y :: z :: rest => (glam_vecs_from_raw rest).map (Vec3Q.mk x y z :: ·)
  | _ => none

/-- `glam_3d_vecs_from_raw_2d`: interpret a raw float list as XY pairs with
`z = 0`; an incomplete final `chunks(2)` chunk panics (`none`). -/
def glam_3d_vecs_from_raw_2d : List ℚ → Option (List Vec3Q)
  | [] => some []
  | x :: y :: rest => (glam_3d_vecs_from_raw_2d rest).map (Vec3Q.mk x y 0 :: ·)
  | _ => none

/-- `glam_vecs_to_raw`: concatenate the XYZ components. -/
def glam_vecs_to_raw (vecs : List Vec3Q) : List ℚ :=
  vecs.flatMap fun v => [v.x, v.y, v.z]

/-- `MeshText`: bounding box plus flat vertex buffer. -/
structure MeshTextM where
  bbox : BBoxQ
  vertices : List ℚ
  deriving DecidableEq, Repr

/-- `IndexedMeshText`: bounding box, index buffer and flat vertex buffer. -/
structure IndexedMeshTextM where
  bbox : BBoxQ
  indices : List Nat
  vertices : List ℚ
  deriving DecidableEq, Repr

/-- Internal non-indexed mesh data `(Vec<Vec3A>, BoundingBox)`. -/
abbrev MeshC : Type := List Vec3Q × BBoxQ

/-- Internal indexed mesh data `(Vec<u32>, Vec<Vec3A>, BoundingBox)`. -/
abbrev IndexedMeshC : Type := List Nat × List Vec3Q × BBoxQ

/-- `text_mesh_from_data`. -/
def text_mesh_from_data (data : MeshC) : MeshTextM :=
  { bbox := data.2, vertices := glam_vecs_to_raw data.1 }

/-- `text_mesh_from_data_indexed`. -/
def text_mesh_from_data_indexed (data : IndexedMeshC) : IndexedMeshTextM :=
  { bbox := data.2.2, indices := data.1, vertices := glam_vecs_to_raw data.2.1 }

/-- The `TriangleMesh` trait surface consumed by `precache_custom_glyph`:
optional index buffer, raw vertex buffer and bounding box. -/
structure TriangleMeshM where
  indices : Option (List Nat)
  vertices : List ℚ
  bbox : BBoxQ
  deriving DecidableEq

/-! ### Font face and generator state (`mesh_generator.rs`) -/

/-- The external font-face capability (spec section 6), abstracted at its
interface boundary: glyph-id resolution, horizontal advance, line height,
and `outline_glyph`, which here yields the tight bounding rectangle together
with the `GlyphOutline` the repository's outline builder accumulates while
the font drives it (or `none` when the glyph has no outline). -/
structure FontM where
  glyphIndex : Char → Option Nat
  glyphHorAdvance : Nat → Option Nat
  height : Int
  outlineGlyph : Nat → Option (RectM × GlyphOutlineM)

/-- Association-list model of `HashMap<String, _>` lookup (`get`). -/
def cacheLookup {α : Type} (m : List (String × α)) (k : String) : Option α :=
  (m.find? fun p => p.1 == k).map (·.2)

/-- Association-list model of `HashMap<String, _>::insert`: replace any
entry with the same key. -/
def cacheInsert {α : Type} (m : List (String × α)) (k : String) (v : α) :
    List (String × α) :=
  (k, v) :: m.filter fun p => p.1 != k

/-- The cache key convention: the character's string form for the flat (2D)
variant, the character with the fixed marker `_` for the extruded (3D)
variant. -/
def keyOf (glyph : Char) (flat : Bool) : String :=
  if flat then String.mk [glyph] else String.mk ['_', glyph]

/-- `MeshGenerator` state: the two cache maps, the font face, the quality
settings and the caching flag. -/
structure GenState where
  cache : List (String × MeshC)
  font : FontM
  indexedCache : List (String × IndexedMeshC)
  quality : QualityM
  useCache : Bool

/-- `glyph_id_of_char`: resolve the glyph id, substituting id 0 when the
font reports none. -/
def glyph_id_of_char (st : GenState) (glyph : Char) : Nat :=
  (st.font.glyphIndex glyph).getD 0

/-- `clear_cache`: clears the non-indexed map when caching is enabled. -/
def clear_cache (st : GenState) : GenState :=
  if st.useCache then { st with cache := [] } else st

/-- `insert_into_cache`: rasterize the glyph (an empty mesh with a zero rect
and zero depth when the font reports no outline), build the bounding box
from the rect scaled by the font height with the depth as z-extent, insert
the result into the non-indexed map under the key convention, and return
it. -/
def insert_into_cache (tri : Triangulator) (st : GenState) (glyph : Char)
    (flat : Bool) : Except ErrM (MeshC × GenState) :=
  let fontHeight : ℚ := (st.font.height : ℚ)
  let glyphIndex := glyph_id_of_char st glyph
  let rasterized : Except ErrM ((RectM × List Vec3Q) × (ℚ × ℚ)) :=
    match st.font.outlineGlyph glyphIndex with
    | some (rect, outline) =>
      match raster_to_mesh tri outline flat with
      | .error e => .error e
      | .ok mesh => .ok ((rect, mesh), ((1 : ℚ)/2, -(1 : ℚ)/2))
    | none => .ok ((⟨0, 0, 0, 0⟩, []), (0, 0))
  match rasterized with
  | .error e => .error e
  | .ok ((rect, mesh), depth) =>
    let bbox : BBoxQ :=
      if flat then
        ⟨⟨(rect.xMax : ℚ) / fontHeight, (rect.yMax : ℚ) / fontHeight, 0⟩,
         ⟨(rect.xMin : ℚ) / fontHeight, (rect.yMin : ℚ) / fontHeight, 0⟩⟩
      else
        ⟨⟨(rect.xMax : ℚ) / fontHeight, (rect.yMax : ℚ) / fontHeight, depth.1⟩,
         ⟨(rect.xMin : ℚ) / fontHeight, (rect.yMin : ℚ) / fontHeight, depth.2⟩⟩
    .ok ((mesh, bbox),
      { st with cache := cacheInsert st.cache (keyOf glyph flat) (mesh, bbox) })

/-- `insert_into_cache_indexed`: as `insert_into_cache` but for the indexed
map, storing `(indices, vertices, bbox)`. -/
def insert_into_cache_indexed (tri : Triangulator) (st : GenState)
    (glyph : Char) (flat : Bool) : Except ErrM (IndexedMeshC × GenState) :=
  let fontHeight : ℚ := (st.font.height : ℚ)
  let glyphIndex := glyph_id_of_char st glyph
  let rasterized : Except ErrM ((RectM × List Vec3Q × List Nat) × (ℚ × ℚ)) :=
    match st.font.outlineGlyph glyphIndex with
    | some (rect, outline) =>
      match raster_to_mesh_indexed tri outline flat with
      | .error e => .error e
      | .ok mesh => .ok ((rect, mesh.1, mesh.2), ((1 : ℚ)/2, -(1 : ℚ)/2))
    | none => .ok ((⟨0, 0, 0, 0⟩, [], []), (0, 0))
  match rasterized with
  | .error e => .error e
  | .ok ((rect, vertices, indices), depth) =>
    let bbox : BBoxQ :=
      if flat then
        ⟨⟨(rect.xMax : ℚ) / fontHeight, (rect.yMax : ℚ) / fontHeight, 0⟩,
         ⟨(rect.xMin : ℚ) / fontHeight, (rect.yMin : ℚ) / fontHeight, 0⟩⟩
      else
        ⟨⟨(rect.xMax : ℚ) / fontHeight, (rect.yMax : ℚ) / fontHeight, depth.1⟩,
         ⟨(rect.xMin : ℚ) / fontHeight, (rect.yMin : ℚ) / fontHeight, depth.2⟩⟩
    .ok ((indices, vertices, bbox),
      { st with indexedCache :=
          cacheInsert st.indexedCache (keyOf glyph flat) (indices, vertices, bbox) })

/-- `load_from_cache`: return the stored entry on a hit, otherwise compute
and insert. -/
def load_from_cache (tri : Triangulator) (st : GenState) (glyph : Char)
    (flat : Bool) : Except ErrM (MeshC × GenState) :=
  if flat then
    match cacheLookup st.cache (String.mk [glyph]) with
    | some glyphMesh => .ok (glyphMesh, st)
    | none => insert_into_cache tri st glyph flat
  else
    match cacheLookup st.cache (String.mk ['_', glyph]) with
    | some glyphMesh => .ok (glyphMesh, st)
    | none => insert_into_cache tri st glyph flat

/-- `load_from_cache_indexed`: indexed counterpart of `load_from_cache`. -/
def load_from_cache_indexed (tri : Triangulator) (st : GenState)
    (glyph : Char) (flat : Bool) : Except ErrM (IndexedMeshC × GenState) :=
  if flat then
    match cacheLookup st.indexedCache (String.mk [glyph]) with
    | some glyphMesh => .ok (glyphMesh, st)
    | none => insert_into_cache_indexed tri st glyph flat
  else
    match cacheLookup st.indexedCache (String.mk ['_', glyph]) with
    | some glyphMesh => .ok (glyphMesh, st)
    | none => insert_into_cache_indexed tri st glyph flat

/-- `precache_custom_glyph`: insert a caller-supplied mesh under the key
convention, converting its raw vertex buffer (2 components per vertex when
flat, 3 otherwise); always returns `Ok(())` when it returns, but the
conversion panics (`none`) on a ragged vertex buffer. -/
def precache_custom_glyph (st : GenState) (glyph : Char) (flat : Bool)
    (mesh : TriangleMeshM) : Option (Except ErrM GenState) :=
  match mesh.indices with
  | some indices =>
    if flat then
      (glam_3d_vecs_from_raw_2d mesh.vertices).map fun vs =>
        .ok { st with
          indexedCache :=
            cacheInsert st.indexedCache (keyOf glyph true) (indices, vs, mesh.bbox) }
    else
      (glam_vecs_from_raw mesh.vertices).map fun vs =>
        .ok { st with
          indexedCache :=
            cacheInsert st.indexedCache (keyOf glyph false) (indices, vs, mesh.bbox) }
  | none =>
    if flat then
      (glam_3d_vecs_from_raw_2d mesh.vertices).map fun vs =>
        .ok { st with
          cache := cacheInsert st.cache (keyOf glyph true) (vs, mesh.bbox) }
    else
      (glam_vecs_from_raw mesh.vertices).map fun vs =>
        .ok { st with
          cache := cacheInsert st.cache (keyOf glyph false) (vs, mesh.bbox) }

/-- `generate_glyph`: load (or compute) the glyph mesh, apply the optional
transform to every vertex and to the bounding box, and flatten to the
output format. -/
def generate_glyph (tri : Triangulator) (st : GenState) (glyph : Char)
    (flat : Bool) (transform : Option Mat4Q) :
    Except ErrM (MeshTextM × GenState) :=
  match load_from_cache tri st glyph flat with
  | .error e => .error e
  | .ok (mesh, st') =>
    let mesh := match transform with
      | some t => (mesh.1.map t.transformPoint3a, mesh.2.transformBy t)
      | none => mesh
    .ok (text_mesh_from_data mesh, st')

/-- `generate_glyph_indexed`: indexed counterpart of `generate_glyph`. -/
def generate_glyph_indexed (tri : Triangulator) (st : GenState) (glyph : Char)
    (flat : Bool) (transform : Option Mat4Q) :
    Except ErrM (IndexedMeshTextM × GenState) :=
  match load_from_cache_indexed tri st glyph flat with
  | .error e => .error e
  | .ok (mesh, st') =>
    let mesh := match transform with
      | some t => (mesh.1, mesh.2.1.map t.transformPoint3a, mesh.2.2.transformBy t)
      | none => mesh
    .ok (text_mesh_from_data_indexed mesh, st')

/-- `generate_glyph_with_glam_transform`: load and transform the internal
mesh data. -/
def generate_glyph_with_glam_transform (tri : Triangulator) (st : GenState)
    (glyph : Char) (flat : Bool) (t : Mat4Q) :
    Except ErrM (MeshC × GenState) :=
  match load_from_cache tri st glyph flat with
  | .error e => .error e
  | .ok (mesh, st') =>
    .ok ((mesh.1.map t.transformPoint3a, mesh.2.transformBy t), st')

/-- `generate_glyph_with_glam_transform_indexed`: indexed counterpart. -/
def generate_glyph_with_glam_transform_indexed (tri : Triangulator)
    (st : GenState) (glyph : Char) (flat : Bool) (t : Mat4Q) :
    Except ErrM (IndexedMeshC × GenState) :=
  match load_from_cache_indexed tri st glyph flat with
  | .error e => .error e
  | .ok (mesh, st') =>
    .ok ((mesh.1, mesh.2.1.map t.transformPoint3a, mesh.2.2.transformBy t), st')

/-- The per-glyph horizontal advance used by the text-section layout:
`glyph_hor_advance(id).unwrap_or(0) / height`. -/
def xAdvanceOf (st : GenState) (glyph : Char) : ℚ :=
  ((st.font.glyphHorAdvance (glyph_id_of_char st glyph)).getD 0 : ℚ) /
    (st.font.height : ℚ)

/-- `Iterator::max` over a `u32` buffer. -/
def iterMax : List Nat → Option Nat
  | [] => none
  | x :: xs =>
    match iterMax xs with
    | none => some x
    | some m => some (max x m)

/-- The `for glyph in chars_iter` loop of `generate_text_section`: per
glyph, compute the world transform from the running advance, generate the
transformed glyph mesh, append its vertices, combine bounding boxes and
accumulate the advance. -/
def text_section_go (tri : Triangulator) (base : Mat4Q) (flat : Bool) :
    List Char → GenState → List Vec3Q → BBoxQ → ℚ →
    Except ErrM ((List Vec3Q × BBoxQ) × GenState)
  | [], st, verts, bbox, _ => .ok ((verts, bbox), st)
  | glyph :: rest, st, verts, bbox, adv =>
    let xAdv := xAdvanceOf st glyph
    let t := base.mul (mat4FromTranslation ⟨adv, 0, 0⟩)
    match generate_glyph_with_glam_transform tri st glyph flat t with
    | .error e => .error e
    | .ok ((gv, gb), st') =>
      text_section_go tri base flat rest st' (verts ++ gv) (bbox.combine gb)
        (adv + xAdv)

/-- `generate_text_section`: layout loop seeded with an empty vertex buffer
and the empty bounding box; the first glyph replaces the bounding box
instead of combining. -/
def generate_text_section (tri : Triangulator) (st : GenState)
    (text : List Char) (flat : Bool) (transform : Option Mat4Q) :
    Except ErrM (MeshTextM × GenState) :=
  let base := match transform with
    | some value => value
    | none => mat4Identity
  match text with
  | [] => .ok (text_mesh_from_data ([], BBoxQ.empty), st)
  | firstGlyph :: rest =>
    let xAdv := xAdvanceOf st firstGlyph
    let t := base.mul (mat4FromTranslation ⟨0, 0, 0⟩)
    match generate_glyph_with_glam_transform tri st firstGlyph flat t with
    | .error e => .error e
    | .ok ((gv, gb), st') =>
      match text_section_go tri base flat rest st' gv gb xAdv with
      | .error e => .error e
      | .ok (mesh, st'') => .ok (text_mesh_from_data mesh, st'')

/-- The `for glyph in chars_iter` loop of `generate_text_section_indexed`:
additionally offsets the glyph's index buffer by the running `index_offset`
before appending and updates the offset to the maximum appended index plus
one when the glyph contributed indices. -/
def text_section_indexed_go (tri : Triangulator) (base : Mat4Q) (flat : Bool) :
    List Char → GenState → List Nat → List Vec3Q → BBoxQ → ℚ → Nat →
    Except ErrM (IndexedMeshC × GenState)
  | [], st, idxs, verts, bbox, _, _ => .ok ((idxs, verts, bbox), st)
  | glyph :: rest, st, idxs, verts, bbox, adv, off =>
    let xAdv := xAdvanceOf st glyph
    let t := base.mul (mat4FromTranslation ⟨adv, 0, 0⟩)
    match generate_glyph_with_glam_transform_indexed tri st glyph flat t with
    | .error e => .error e
    | .ok ((gi, gv, gb), st') =>
      let gi2 := gi.map (· + off)
      let off2 := match iterMax gi2 with
        | some m => m + 1
        | none => off
      text_section_indexed_go tri base flat rest st' (idxs ++ gi2)
        (verts ++ gv) (bbox.combine gb) (adv + xAdv) off2

/-- `generate_text_section_indexed`: indexed layout; the first glyph's
indices are appended unoffset and seed the running `index_offset`. -/
def generate_text_section_indexed (tri : Triangulator) (st : GenState)
    (text : List Char) (flat : Bool) (transform : Option Mat4Q) :
    Except ErrM (IndexedMeshTextM × GenState) :=
  let base := match transform with
    | some value => value
    | none => mat4Identity
  match text with
  | [] => .ok (text_mesh_from_data_indexed ([], [], BBoxQ.empty), st)
  | firstGlyph :: rest =>
    let xAdv := xAdvanceOf st firstGlyph
    let t := base.mul (mat4FromTranslation ⟨0, 0, 0⟩)
    match generate_glyph_with_glam_transform_indexed tri st firstGlyph flat t with
    | .error e => .error e
    | .ok ((gi, gv, gb), st') =>
      let off1 := match iterMax gi with
        | some m => m + 1
        | none => 0
      match text_section_indexed_go tri base flat rest st' gi gv gb xAdv off1 with
      | .error e => .error e
      | .ok (mesh, st'') => .ok (text_mesh_from_data_indexed mesh, st'')

/-! ### Concrete fixtures used to exercise the model -/

/-- A triangulator that always returns the single triangle `(0, 1, 2)`. -/
def triOk : Triangulator := fun _ _ => Except.ok [(0, 1, 2)]

/-- A closed single-triangle outline: the contour cycles back to its start
index, as `close()` leaves it. -/
def triangleOutline : GlyphOutlineM :=
  ⟨[[0, 1, 2, 0]], [(0, 0), (1, 0), (0, 1)]⟩

/-- A font face whose glyphs have no outline (every character behaves like a
space). -/
def fontTrivial : FontM :=
  ⟨fun _ => none, fun _ => none, 1, fun _ => none⟩

/-- A font face with a single triangular glyph outline for every
character. -/
def fontTri : FontM :=
  ⟨fun _ => some 0, fun _ => some 1, 1, fun _ => some (⟨0, 0, 0, 0⟩, triangleOutline)⟩

/-- A freshly constructed generator over the given font. -/
def genOf (font : FontM) (useCache : Bool) : GenState :=
  ⟨[], font, [], ⟨5, 3⟩, useCache⟩

/-! ### Claim theorems -/

/-- C10: generating a non-indexed text section from the empty string returns
`Ok` with zero vertices and the all-zero bounding box, and leaves the
generator state (in particular both cache maps) unchanged. -/
theorem generate_text_section_empty_text (tri : Triangulator) (st : GenState)
    (flat : Bool) (transform : Option Mat4Q) :
    generate_text_section tri st [] flat transform =
      .ok (⟨⟨⟨0, 0, 0⟩, ⟨0, 0, 0⟩⟩, []⟩, st) := rfl

/-- A generator with caching enabled holding one non-indexed and one indexed
cached glyph. -/
def bothCachesGen : GenState :=
  ⟨[(String.mk ['A'], ([], BBoxQ.empty))], fontTrivial,
   [(String.mk ['A'], ([0, 1, 2], [⟨0, 0, 0⟩], BBoxQ.empty))], ⟨5, 3⟩, true⟩

/-- C2 (code bug): `clear_cache` empties only the non-indexed map; on a
caching-enabled generator holding an indexed entry, the indexed map is left
untouched (and in general `clear_cache` never modifies the indexed map),
contradicting the documented "removes all stored glyphs". -/
theorem clear_cache_skips_indexed_map :
    bothCachesGen.useCache = true ∧
    (clear_cache bothCachesGen).cache = [] ∧
    (clear_cache bothCachesGen).indexedCache = bothCachesGen.indexedCache ∧
    bothCachesGen.indexedCache ≠ [] ∧
    ∀ st : GenState, (clear_cache st).indexedCache = st.indexedCache := by
  refine ⟨rfl, rfl, rfl, by simp [bothCachesGen], fun st => ?_⟩
  unfold clear_cache
  split <;> rfl

/-- A generator constructed without caching (`new_without_cache`). -/
def noCacheGen : GenState := genOf fontTrivial false

/-- C1 (code bug): with `use_cache = false`, a cache-miss generation still
persists the computed mesh: starting from empty maps, generating the glyph
`x` (flat, non-indexed and indexed) leaves an entry in the corresponding
cache map, because `insert_into_cache` / `insert_into_cache_indexed` never
consult `use_cache`. -/
theorem generate_without_cache_persists :
    noCacheGen.useCache = false ∧ noCacheGen.cache = [] ∧
    noCacheGen.indexedCache = [] ∧
    ((generate_glyph triOk noCacheGen 'x' true none).toOption.map
        fun r => r.2.cache) =
      some [(String.mk ['x'], ([], ⟨⟨0, 0, 0⟩, ⟨0, 0, 0⟩⟩))] ∧
    ((generate_glyph_indexed triOk noCacheGen 'x' true none).toOption.map
        fun r => r.2.indexedCache) =
      some [(String.mk ['x'], ([], [], ⟨⟨0, 0, 0⟩, ⟨0, 0, 0⟩⟩))] := by
  refine ⟨rfl, rfl, rfl, ?_, ?_⟩ <;>
    norm_num [generate_glyph, generate_glyph_indexed, load_from_cache,
      load_from_cache_indexed, cacheLookup, insert_into_cache,
      insert_into_cache_indexed, glyph_id_of_char, noCacheGen, genOf,
      fontTrivial, keyOf, cacheInsert, text_mesh_from_data,
      text_mesh_from_data_indexed, glam_vecs_to_raw, Except.toOption]

/-- C8 (code bug): `quad_to` re-reads the builder's mutated `current_point`
on every loop iteration, so for 3 interpolation steps from pen point
`(0, 0)` with control `(3, 0)` and end `(3, 3)` the second emitted sample is
`(77/27, 37/27)` instead of the De Casteljau evaluation
`point_on_quad p0 p1 p2 (2/3) = (8/3, 4/3)` of the original quadratic; the
first and last samples still agree. -/
theorem quad_to_reuses_current_point :
    ((((BuilderM.new 1 ⟨3, 3⟩).moveTo 0 0).quadTo 3 0 3 3).map
        fun b => b.points) =
      some [(0, 0), (5/3, 1/3), (77/27, 37/27), (3, 3)] ∧
    point_on_quad (0, 0) (3, 0) (3, 3) (2/3) = (8/3, 4/3) ∧
    ((77 : ℚ)/27, (37 : ℚ)/27) ≠ ((8 : ℚ)/3, (4 : ℚ)/3) := by
  refine ⟨?_, ?_, ?_⟩ <;>
    norm_num [BuilderM.new, BuilderM.moveTo, BuilderM.quadTo, BuilderM.quadLoop,
      BuilderM.quadStep, BuilderM.lineTo, BuilderM.addPoint, pushToLastContour,
      point_on_quad, point_on_line, List.range_succ, Prod.ext_iff]

/-- A custom mesh whose raw vertex buffer has a single component, so the
`chunks(2)` conversion hits an incomplete chunk. -/
def raggedMesh : TriangleMeshM := ⟨none, [1], BBoxQ.empty⟩

/-- C9 counterexample: `precache_custom_glyph` does not return `Ok` for
every input mesh — on a vertex buffer of length 1 the vertex conversion
indexes past the incomplete final chunk and panics (modelled by `none`). -/
theorem precache_custom_glyph_panics :
    precache_custom_glyph (genOf fontTrivial true) 'A' true raggedMesh =
      none := rfl

/-- C7: when the font reports no outline for the glyph, all four generation
variants succeed with an empty mesh (no vertices, no indices) and the
all-zero bounding box. -/
theorem no_outline_gives_empty_mesh (tri : Triangulator) (st : GenState)
    (glyph : Char)
    (h : st.font.outlineGlyph (glyph_id_of_char st glyph) = none)
    (_hh : 0 < st.font.height) :
    ((insert_into_cache tri st glyph true).toOption.map fun r => r.1) =
      some ([], ⟨⟨0, 0, 0⟩, ⟨0, 0, 0⟩⟩) ∧
    ((insert_into_cache tri st glyph false).toOption.map fun r => r.1) =
      some ([], ⟨⟨0, 0, 0⟩, ⟨0, 0, 0⟩⟩) ∧
    ((insert_into_cache_indexed tri st glyph true).toOption.map fun r => r.1) =
      some ([], [], ⟨⟨0, 0, 0⟩, ⟨0, 0, 0⟩⟩) ∧
    ((insert_into_cache_indexed tri st glyph false).toOption.map fun r => r.1) =
      some ([], [], ⟨⟨0, 0, 0⟩, ⟨0, 0, 0⟩⟩) := by
  refine ⟨?_, ?_, ?_, ?_⟩ <;>
    simp [insert_into_cache, insert_into_cache_indexed, h, Except.toOption]

/-- Witness for C7 at the trivial font and a space character. -/
theorem no_outline_gives_empty_mesh_witness :
    fontTrivial.outlineGlyph (glyph_id_of_char (genOf fontTrivial true) ' ') =
      none ∧
    (0 : Int) < fontTrivial.height ∧
    (((insert_into_cache triOk (genOf fontTrivial true) ' ' true).toOption.map
        fun r => r.1) =
      some ([], ⟨⟨0, 0, 0⟩, ⟨0, 0, 0⟩⟩) ∧
    ((insert_into_cache triOk (genOf fontTrivial true) ' ' false).toOption.map
        fun r => r.1) =
      some ([], ⟨⟨0, 0, 0⟩, ⟨0, 0, 0⟩⟩) ∧
    ((insert_into_cache_indexed triOk (genOf fontTrivial true) ' '
        true).toOption.map fun r => r.1) =
      some ([], [], ⟨⟨0, 0, 0⟩, ⟨0, 0, 0⟩⟩) ∧
    ((insert_into_cache_indexed triOk (genOf fontTrivial true) ' '
        false).toOption.map fun r => r.1) =
      some ([], [], ⟨⟨0, 0, 0⟩, ⟨0, 0, 0⟩⟩)) :=
  ⟨rfl, by norm_num [fontTrivial],
   no_outline_gives_empty_mesh triOk (genOf fontTrivial true) ' ' rfl
     (by norm_num [genOf, fontTrivial])⟩

/-- Every vertex emitted by the flat non-indexed assembly lies at `z = 0`. -/
lemma raster_to_mesh_flat_z (tri : Triangulator) (outline : GlyphOutlineM)
    (vs : List Vec3Q) (h : raster_to_mesh tri outline true = .ok vs) :
    ∀ v ∈ vs, v.z = 0 := by
  unfold raster_to_mesh at h
  cases hg : get_glyph_area_triangulation tri outline with
  | error e => rw [hg] at h; cases h
  | ok te =>
    obtain ⟨tris, edges⟩ := te
    rw [hg] at h
    dsimp only at h
    rw [if_pos rfl] at h
    injection h with h
    subst h
    intro v hv
    simp only [List.mem_flatMap, List.mem_cons, List.not_mem_nil,
      or_false] at hv
    obtain ⟨t, _, hv⟩ := hv
    rcases hv with h1 | h1 | h1 <;> simp [h1]

/-- Every vertex emitted by the extruded non-indexed assembly lies at
`z = 1/2` or `z = -1/2` (caps and side walls alike). -/
lemma raster_to_mesh_extruded_z (tri : Triangulator) (outline : GlyphOutlineM)
    (vs : List Vec3Q) (h : raster_to_mesh tri outline false = .ok vs) :
    ∀ v ∈ vs, v.z = 1/2 ∨ v.z = -(1/2) := by
  unfold raster_to_mesh at h
  cases hg : get_glyph_area_triangulation tri outline with
  | error e => rw [hg] at h; cases h
  | ok te =>
    obtain ⟨tris, edges⟩ := te
    rw [hg] at h
    simp only [Bool.false_eq_true, if_false, Except.ok.injEq] at h
    subst h
    intro v hv
    unfold triangulate_between_edges at hv
    rw [List.mem_append] at hv
    rcases hv with hv | hv <;>
    · simp only [List.mem_flatMap, List.mem_cons, List.not_mem_nil,
        or_false] at hv
      obtain ⟨t, _, hv⟩ := hv
      rcases hv with h1 | h1 | h1 | h1 | h1 | h1 <;> norm_num [h1]

/-- C5: for a glyph with a real outline that generates successfully, the
flat bounding box and all flat vertices have `z = 0`, while the extruded
bounding box has `max.z = 1/2`, `min.z = -1/2` (z-extent exactly 1) and
every extruded vertex lies at `z = 1/2` or `z = -1/2`. -/
theorem outline_glyph_z_extents (tri : Triangulator) (st : GenState)
    (glyph : Char) (rect : RectM) (outline : GlyphOutlineM)
    (h : st.font.outlineGlyph (glyph_id_of_char st glyph) =
      some (rect, outline)) :
    (∀ m bb st2, insert_into_cache tri st glyph true = .ok ((m, bb), st2) →
       bb.max.z = 0 ∧ bb.min.z = 0 ∧ ∀ v ∈ m, v.z = 0) ∧
    (∀ m bb st2, insert_into_cache tri st glyph false = .ok ((m, bb), st2) →
       bb.max.z = 1/2 ∧ bb.min.z = -(1/2) ∧ bb.max.z - bb.min.z = 1 ∧
       ∀ v ∈ m, v.z = 1/2 ∨ v.z = -(1/2)) := by
  constructor
  · intro m bb st2 hok
    simp only [insert_into_cache, h] at hok
    cases hr : raster_to_mesh tri outline true with
    | error e => rw [hr] at hok; cases hok
    | ok mesh =>
      rw [hr] at hok
      simp only [if_pos rfl, Except.ok.injEq, Prod.mk.injEq] at hok
      obtain ⟨⟨hm, hbb⟩, -⟩ := hok
      subst hm; subst hbb
      exact ⟨rfl, rfl, raster_to_mesh_flat_z tri outline mesh hr⟩
  · intro m bb st2 hok
    simp only [insert_into_cache, h] at hok
    cases hr : raster_to_mesh tri outline false with
    | error e => rw [hr] at hok; cases hok
    | ok mesh =>
      rw [hr] at hok
      simp only [Bool.false_eq_true, if_false, Except.ok.injEq,
        Prod.mk.injEq] at hok
      obtain ⟨⟨hm, hbb⟩, -⟩ := hok
      subst hm; subst hbb
      refine ⟨by norm_num, by norm_num, by norm_num,
        raster_to_mesh_extruded_z tri outline mesh hr⟩

/-- Witness for C5 at the triangle font: both insertions succeed and the
z-extent facts hold. -/
theorem outline_glyph_z_extents_witness :
    fontTri.outlineGlyph (glyph_id_of_char (genOf fontTri true) 'A') =
      some (⟨0, 0, 0, 0⟩, triangleOutline) ∧
    (insert_into_cache triOk (genOf fontTri true) 'A' true).isOk = true ∧
    (insert_into_cache triOk (genOf fontTri true) 'A' false).isOk = true ∧
    ((∀ m bb st2,
        insert_into_cache triOk (genOf fontTri true) 'A' true =
          .ok ((m, bb), st2) →
        bb.max.z = 0 ∧ bb.min.z = 0 ∧ ∀ v ∈ m, v.z = 0) ∧
     (∀ m bb st2,
        insert_into_cache triOk (genOf fontTri true) 'A' false =
          .ok ((m, bb), st2) →
        bb.max.z = 1/2 ∧ bb.min.z = -(1/2) ∧ bb.max.z - bb.min.z = 1 ∧
        ∀ v ∈ m, v.z = 1/2 ∨ v.z = -(1/2))) :=
  ⟨rfl,
   by norm_num [insert_into_cache, raster_to_mesh,
     get_glyph_area_triangulation, collectEdges, contourEdges,
     triangulate_between_edges, pointAt, triOk, fontTri, genOf,
     glyph_id_of_char, triangleOutline, keyOf, cacheInsert, Except.isOk,
     Except.toBool],
   by norm_num [insert_into_cache, raster_to_mesh,
     get_glyph_area_triangulation, collectEdges, contourEdges,
     triangulate_between_edges, pointAt, triOk, fontTri, genOf,
     glyph_id_of_char, triangleOutline, keyOf, cacheInsert, Except.isOk,
     Except.toBool],
   outline_glyph_z_extents triOk (genOf fontTri true) 'A' ⟨0, 0, 0, 0⟩
     triangleOutline rfl⟩

/-- The edges of a contour with at least two indices start with the pair of
its first two indices. -/
lemma contourEdges_cons_cons (a b : Nat) (t : List Nat) :
    contourEdges (a :: b :: t) = (a, b) :: contourEdges (b :: t) := rfl

/-- The terminal index of the last edge of a contour is the contour's last
index. -/
lemma contourEdges_getLast_snd :
    ∀ (t : List Nat) (a b : Nat),
      (contourEdges (a :: b :: t)).getLast?.map Prod.snd = (b :: t).getLast? := by
  intro t
  induction t with
  | nil => intro a b; rfl
  | cons c t' ih =>
    intro a b
    rw [contourEdges_cons_cons, contourEdges_cons_cons,
      List.getLast?_cons_cons, ← contourEdges_cons_cons, ih b c,
      List.getLast?_cons_cons]

/-- The edge-collection loop fails with the open-contour error as soon as
any remaining contour with at least one edge does not cycle back to its
first index, whatever the accumulator holds. -/
lemma collectEdges_open :
    ∀ (cs : List (List Nat)) (acc : List (Nat × Nat)),
      (∃ c ∈ cs, 2 ≤ c.length ∧ c.head? ≠ c.getLast?) →
      collectEdges cs acc = .error (ErrM.glyphTriangulation "Open contour.") := by
  intro cs
  induction cs with
  | nil => intro acc h; simp at h
  | cons c rest ih =>
    intro acc h
    rcases h with ⟨c', hc', hbad⟩
    rw [List.mem_cons] at hc'
    rcases hc' with hceq | hmem
    · subst hceq
      obtain ⟨hlen, hne⟩ := hbad
      match c', hlen with
      | a :: b :: t, _ =>
        have h0 : (acc ++ contourEdges (a :: b :: t))[acc.length]? =
            some (a, b) := by
          rw [List.getElem?_append_right (Nat.le_refl _)]
          simp [contourEdges_cons_cons]
        obtain ⟨L, hL⟩ : ∃ L, (b :: t).getLast? = some L := by
          cases hbt : (b :: t).getLast? with
          | none => simp at hbt
          | some L => exact ⟨L, rfl⟩
        obtain ⟨q, hq, hq2⟩ :
            ∃ q, (contourEdges (a :: b :: t)).getLast? = some q ∧ q.2 = L := by
          have hsnd := contourEdges_getLast_snd t a b
          rw [hL] at hsnd
          cases hq : (contourEdges (a :: b :: t)).getLast? with
          | none => rw [hq] at hsnd; simp at hsnd
          | some q =>
            rw [hq] at hsnd
            exact ⟨q, rfl, by simpa using hsnd⟩
        have hlast : (acc ++ contourEdges (a :: b :: t)).getLast? = some q := by
          rw [List.getLast?_append, hq]; rfl
        have hne' : a ≠ L := by
          intro hEq
          exact hne (by rw [List.head?_cons, List.getLast?_cons_cons, hL, hEq])
        simp only [collectEdges, h0, hlast]
        rw [hq2]
        rw [if_pos hne']
    · -- an open contour further down the list: whatever the head contour
      -- does, either the check fires (same error) or the loop recurses
      simp only [collectEdges]
      split
      · exact ih _ ⟨c', hmem, hbad⟩
      · split
        · exact ih _ ⟨c', hmem, hbad⟩
        · split
          · rfl
          · exact ih _ ⟨c', hmem, hbad⟩

/-- C4: an outline containing a contour whose last edge does not return to
the contour's first point makes `get_glyph_area_triangulation` return the
typed open-contour triangulation error, for every external triangulator;
the triangulator is never consulted and no repaired mesh is produced. -/
theorem open_contour_error (tri : Triangulator) (outline : GlyphOutlineM)
    (h : ∃ c ∈ outline.contours, 2 ≤ c.length ∧ c.head? ≠ c.getLast?) :
    get_glyph_area_triangulation tri outline =
      .error (ErrM.glyphTriangulation "Open contour.") := by
  unfold get_glyph_area_triangulation
  rw [collectEdges_open outline.contours [] h]

/-- An outline whose single contour does not cycle back to its start. -/
def openOutline : GlyphOutlineM := ⟨[[0, 1, 2]], [(0, 0), (1, 0), (0, 1)]⟩

/-- Witness for C4 at a concrete open outline. -/
theorem open_contour_error_witness :
    (∃ c ∈ openOutline.contours, 2 ≤ c.length ∧ c.head? ≠ c.getLast?) ∧
    get_glyph_area_triangulation triOk openOutline =
      .error (ErrM.glyphTriangulation "Open contour.") :=
  ⟨⟨[0, 1, 2], by simp [openOutline], by simp⟩,
   open_contour_error triOk openOutline
     ⟨[0, 1, 2], by simp [openOutline], by simp⟩⟩

/-- Both endpoints of a contour edge are indices of that contour. -/
lemma contourEdges_mem (c : List Nat) (e : Nat × Nat)
    (h : e ∈ contourEdges c) : e.1 ∈ c ∧ e.2 ∈ c := by
  unfold contourEdges at h
  have hz := List.of_mem_zip h
  exact ⟨hz.1, List.tail_subset c hz.2⟩

/-- Every edge produced by a successful edge-collection run either was
already in the accumulator or connects two indices of one of the contours. -/
lemma collectEdges_ok_mem :
    ∀ (cs : List (List Nat)) (acc out : List (Nat × Nat)),
      collectEdges cs acc = .ok out →
      ∀ e ∈ out, e ∈ acc ∨ ∃ c ∈ cs, e.1 ∈ c ∧ e.2 ∈ c := by
  intro cs
  induction cs with
  | nil =>
    intro acc out h e he
    simp only [collectEdges, Except.ok.injEq] at h
    subst h
    exact Or.inl he
  | cons c rest ih =>
    intro acc out h e he
    have key : collectEdges rest (acc ++ contourEdges c) = .ok out →
        e ∈ acc ∨ ∃ c' ∈ c :: rest, e.1 ∈ c' ∧ e.2 ∈ c' := by
      intro hr
      rcases ih _ _ hr e he with hacc | ⟨c', hc', hp⟩
      · rw [List.mem_append] at hacc
        rcases hacc with hacc | hedge
        · exact Or.inl hacc
        · exact Or.inr ⟨c, List.mem_cons_self c rest, contourEdges_mem c e hedge⟩
      · exact Or.inr ⟨c', List.mem_cons_of_mem c hc', hp⟩
    simp only [collectEdges] at h
    split at h
    · exact key h
    · split at h
      · exact key h
      · split at h
        · cases h
        · exact key h

/-- C6: assuming the external triangulator returns triangles over the point
cloud and the outline's contours index into the point cloud, every index of
a successfully generated indexed glyph mesh is strictly below the vertex
count, and the extruded variant has exactly twice the flat point count as
vertices. -/
theorem indexed_mesh_integrity (tri : Triangulator) (outline : GlyphOutlineM)
    (tris : List TriIdx) (edges : List (Nat × Nat))
    (hok : get_glyph_area_triangulation tri outline = .ok (tris, edges))
    (htris : ∀ t ∈ tris, t.1 < outline.points.length ∧
      t.2.1 < outline.points.length ∧ t.2.2 < outline.points.length)
    (hcont : ∀ c ∈ outline.contours, ∀ i ∈ c, i < outline.points.length) :
    (∀ verts idxs,
       raster_to_mesh_indexed tri outline true = .ok (verts, idxs) →
       verts.length = outline.points.length ∧ ∀ i ∈ idxs, i < verts.length) ∧
    (∀ verts idxs,
       raster_to_mesh_indexed tri outline false = .ok (verts, idxs) →
       verts.length = 2 * outline.points.length ∧
         ∀ i ∈ idxs, i < verts.length) := by
  have hedges : ∀ e ∈ edges, e.1 < outline.points.length ∧
      e.2 < outline.points.length := by
    intro e he
    unfold get_glyph_area_triangulation at hok
    cases hce : collectEdges outline.contours [] with
    | error err => rw [hce] at hok; cases hok
    | ok out =>
      rw [hce] at hok
      dsimp only at hok
      cases htr : tri outline.points out with
      | error err => rw [htr] at hok; cases hok
      | ok ts =>
        rw [htr] at hok
        injection hok with hok
        injection hok with hok1 hok2
        subst hok2
        rcases collectEdges_ok_mem outline.contours [] out hce e he with
          habs | ⟨c, hc, h1, h2⟩
        · cases habs
        · exact ⟨hcont c hc e.1 h1, hcont c hc e.2 h2⟩
  constructor
  · intro verts idxs h
    unfold raster_to_mesh_indexed at h
    rw [hok] at h
    dsimp only at h
    rw [if_pos rfl] at h
    injection h with h
    injection h with h1 h2
    subst h1; subst h2
    refine ⟨by simp, ?_⟩
    intro i hi
    simp only [List.mem_flatMap, List.mem_cons, List.not_mem_nil,
      or_false] at hi
    obtain ⟨t, ht, hi⟩ := hi
    rcases htris t ht with ⟨ha, hb, hc⟩
    rw [List.length_map]
    rcases hi with rfl | rfl | rfl
    · exact ha
    · exact hb
    · exact hc
  · intro verts idxs h
    unfold raster_to_mesh_indexed at h
    rw [hok] at h
    dsimp only at h
    rw [if_neg (by simp)] at h
    injection h with h
    injection h with h1 h2
    subst h1; subst h2
    constructor
    · simp only [List.length_append, List.length_map]
      omega
    · intro i hi
      unfold triangulate_between_edges_indexed at hi
      rw [List.mem_append] at hi
      rcases hi with hi | hi
      · simp only [List.mem_flatMap, List.mem_cons, List.not_mem_nil,
          or_false] at hi
        obtain ⟨t, ht, hi⟩ := hi
        rcases htris t ht with ⟨ha, hb, hc⟩
        rcases hi with rfl | rfl | rfl | rfl | rfl | rfl <;>
          · simp only [List.length_append, List.length_map]
            omega
      · simp only [List.mem_flatMap, List.mem_cons, List.not_mem_nil,
          or_false] at hi
        obtain ⟨e, he, hi⟩ := hi
        rcases hedges e he with ⟨ha, hb⟩
        rcases hi with rfl | rfl | rfl | rfl | rfl | rfl <;>
          · simp only [List.length_append, List.length_map]
            omega

/-- Witness for C6 at the triangle outline and single-triangle
triangulator. -/
theorem indexed_mesh_integrity_witness :
    get_glyph_area_triangulation triOk triangleOutline =
      .ok ([(0, 1, 2)], [(0, 1), (1, 2), (2, 0)]) ∧
    (∀ t ∈ [((0 : Nat), (1 : Nat), (2 : Nat))],
      t.1 < triangleOutline.points.length ∧
      t.2.1 < triangleOutline.points.length ∧
      t.2.2 < triangleOutline.points.length) ∧
    (∀ c ∈ triangleOutline.contours, ∀ i ∈ c,
      i < triangleOutline.points.length) ∧
    (raster_to_mesh_indexed triOk triangleOutline true).isOk = true ∧
    (raster_to_mesh_indexed triOk triangleOutline false).isOk = true ∧
    ((∀ verts idxs,
       raster_to_mesh_indexed triOk triangleOutline true = .ok (verts, idxs) →
       verts.length = triangleOutline.points.length ∧
         ∀ i ∈ idxs, i < verts.length) ∧
     (∀ verts idxs,
       raster_to_mesh_indexed triOk triangleOutline false = .ok (verts, idxs) →
       verts.length = 2 * triangleOutline.points.length ∧
         ∀ i ∈ idxs, i < verts.length)) :=
  ⟨rfl,
   by norm_num [triangleOutline],
   by norm_num [triangleOutline],
   by norm_num [raster_to_mesh_indexed, get_glyph_area_triangulation,
     collectEdges, contourEdges, triangulate_between_edges_indexed, pointAt,
     triOk, triangleOutline, Except.isOk, Except.toBool],
   by norm_num [raster_to_mesh_indexed, get_glyph_area_triangulation,
     collectEdges, contourEdges, triangulate_between_edges_indexed, pointAt,
     triOk, triangleOutline, Except.isOk, Except.toBool],
   indexed_mesh_integrity triOk triangleOutline [(0, 1, 2)]
     [(0, 1), (1, 2), (2, 0)] rfl (by norm_num [triangleOutline])
     (by norm_num [triangleOutline])⟩

/-- Lookup after insert: the inserted key maps to the new value, any other
key is unaffected. -/
lemma cacheLookup_insert {α : Type} (m : List (String × α)) (k k' : String)
    (v : α) :
    cacheLookup (cacheInsert m k v) k' =
      if k' = k then some v else cacheLookup m k' := by
  have hfilter : k' ≠ k →
      List.find? (fun p => p.1 == k') (m.filter fun p => p.1 != k) =
        List.find? (fun p => p.1 == k') m := by
    intro hne
    induction m with
    | nil => rfl
    | cons a m' ih =>
      by_cases hak : a.1 = k
      · have h2 : (a.1 == k') = false := by
          refine beq_eq_false_iff_ne.mpr fun hEq => hne ?_
          rw [← hEq, hak]
        have h3 : (k == k') = false :=
          beq_eq_false_iff_ne.mpr fun hEq => hne hEq.symm
        simp [List.filter_cons, List.find?_cons, hak, h2, h3, ih]
      · simp only [List.filter_cons]
        rw [if_pos (by simp [hak])]
        rw [List.find?_cons, List.find?_cons]
        cases hak' : (a.1 == k') <;> simp [hak', ih]
  unfold cacheLookup cacheInsert
  by_cases hk : k' = k
  · subst hk
    simp [List.find?_cons]
  · have hbeq : (k == k') = false := by
      refine beq_eq_false_iff_ne.mpr fun hEq => hk hEq.symm
    rw [List.find?_cons]
    simp only [hbeq]
    rw [hfilter hk]
    simp [hk]

/-- The key convention is injective for a fixed flatness. -/
lemma keyOf_inj {a b : Char} {flat : Bool} (h : keyOf a flat = keyOf b flat) :
    a = b := by
  cases flat with
  | false =>
    have hd : ['_', a] = ['_', b] := congrArg String.data h
    simpa using hd
  | true =>
    have hd : [a] = [b] := congrArg String.data h
    simpa using hd

/-- `load_from_cache_indexed` written through the key convention. -/
lemma load_from_cache_indexed_eq (tri : Triangulator) (st : GenState)
    (glyph : Char) (flat : Bool) :
    load_from_cache_indexed tri st glyph flat =
      match cacheLookup st.indexedCache (keyOf glyph flat) with
      | some glyphMesh => .ok (glyphMesh, st)
      | none => insert_into_cache_indexed tri st glyph flat := by
  cases flat <;> rfl

/-- The pure computation performed by `insert_into_cache_indexed`: it reads
only the font (and the triangulator), never the caches. -/
def computeGlyphIndexed (tri : Triangulator) (font : FontM) (glyph : Char)
    (flat : Bool) : Except ErrM IndexedMeshC :=
  let fontHeight : ℚ := (font.height : ℚ)
  let rasterized : Except ErrM ((RectM × List Vec3Q × List Nat) × (ℚ × ℚ)) :=
    match font.outlineGlyph ((font.glyphIndex glyph).getD 0) with
    | some (rect, outline) =>
      match raster_to_mesh_indexed tri outline flat with
      | .error e => .error e
      | .ok mesh => .ok ((rect, mesh.1, mesh.2), ((1 : ℚ)/2, -(1 : ℚ)/2))
    | none => .ok ((⟨0, 0, 0, 0⟩, [], []), (0, 0))
  match rasterized with
  | .error e => .error e
  | .ok ((rect, vertices, indices), depth) =>
    let bbox : BBoxQ :=
      if flat then
        ⟨⟨(rect.xMax : ℚ) / fontHeight, (rect.yMax : ℚ) / fontHeight, 0⟩,
         ⟨(rect.xMin : ℚ) / fontHeight, (rect.yMin : ℚ) / fontHeight, 0⟩⟩
      else
        ⟨⟨(rect.xMax : ℚ) / fontHeight, (rect.yMax : ℚ) / fontHeight, depth.1⟩,
         ⟨(rect.xMin : ℚ) / fontHeight, (rect.yMin : ℚ) / fontHeight, depth.2⟩⟩
    .ok (indices, vertices, bbox)

/-- `insert_into_cache_indexed` is `computeGlyphIndexed` over the state's
font followed by the cache insertion. -/
lemma insert_into_cache_indexed_eq (tri : Triangulator) (st : GenState)
    (glyph : Char) (flat : Bool) :
    insert_into_cache_indexed tri st glyph flat =
      match computeGlyphIndexed tri st.font glyph flat with
      | .error e => .error e
      | .ok r =>
        .ok (r, { st with
          indexedCache := cacheInsert st.indexedCache (keyOf glyph flat) r }) := by
  dsimp only [insert_into_cache_indexed, computeGlyphIndexed, glyph_id_of_char]
  cases hg : st.font.outlineGlyph ((st.font.glyphIndex glyph).getD 0) with
  | none => cases flat <;> rfl
  | some p =>
    obtain ⟨rect, outline⟩ := p
    dsimp only
    cases hr : raster_to_mesh_indexed tri outline flat with
    | error e => rfl
    | ok mesh => cases flat <;> rfl

/-- C3: in the indexed text section, each glyph's index buffer is offset by
the running `index_offset` before being appended, the offset advances to the
maximum contributed index plus one only when the glyph contributed indices,
and a glyph's index buffer does not depend on which glyphs were generated
before it: for a two-character section the second glyph contributes exactly
its standalone indices shifted by `max(first glyph's indices) + 1`, unshifted
when the first glyph contributes no indices. -/
theorem text_section_index_offsets (tri : Triangulator) (st : GenState)
    (a b : Char) (flat : Bool) (T : Option Mat4Q)
    (iA : List Nat) (vA : List Vec3Q) (bA : BBoxQ) (st1 : GenState)
    (iB : List Nat) (vB : List Vec3Q) (bB : BBoxQ) (st2 : GenState)
    (iB0 : List Nat) (vB0 : List Vec3Q) (bB0 : BBoxQ) (st3 : GenState)
    (h1 : load_from_cache_indexed tri st a flat = .ok ((iA, vA, bA), st1))
    (h2 : load_from_cache_indexed tri st1 b flat = .ok ((iB, vB, bB), st2))
    (h3 : load_from_cache_indexed tri st b flat = .ok ((iB0, vB0, bB0), st3)) :
    iB = iB0 ∧
    ((generate_text_section_indexed tri st [a, b] flat T).toOption.map
        fun r => r.1.indices) =
      some (iA ++ iB.map fun i =>
        i + (match iterMax iA with | some m => m + 1 | none => 0)) ∧
    (iA = [] →
      ((generate_text_section_indexed tri st [a, b] flat T).toOption.map
          fun r => r.1.indices) = some iB0) := by
  have hBeq : iB = iB0 := by
    rw [load_from_cache_indexed_eq] at h1 h2 h3
    cases hA : cacheLookup st.indexedCache (keyOf a flat) with
    | some vA0 =>
      rw [hA] at h1
      dsimp only at h1
      injection h1 with h1
      injection h1 with hvA hst1
      subst hst1
      have hbb := h2.symm.trans h3
      simp only [Except.ok.injEq, Prod.mk.injEq] at hbb
      exact hbb.1.1
    | none =>
      rw [hA] at h1
      dsimp only at h1
      rw [insert_into_cache_indexed_eq] at h1
      cases hcA : computeGlyphIndexed tri st.font a flat with
      | error e => rw [hcA] at h1; cases h1
      | ok rA =>
        rw [hcA] at h1
        dsimp only at h1
        injection h1 with h1
        injection h1 with hrA hst1
        subst hst1
        dsimp only at h2
        rw [cacheLookup_insert] at h2
        by_cases hkab : keyOf b flat = keyOf a flat
        · rw [if_pos hkab] at h2
          dsimp only at h2
          injection h2 with h2
          injection h2 with hrB hst2
          have hab : b = a := keyOf_inj hkab
          subst hab
          rw [hA] at h3
          dsimp only at h3
          rw [insert_into_cache_indexed_eq, hcA] at h3
          dsimp only at h3
          injection h3 with h3
          injection h3 with hrB0 hst3
          have ht := hrB.symm.trans hrB0
          simp only [Prod.mk.injEq] at ht
          exact ht.1
        · rw [if_neg hkab] at h2
          cases hB : cacheLookup st.indexedCache (keyOf b flat) with
          | some vB1 =>
            rw [hB] at h2 h3
            dsimp only at h2 h3
            injection h2 with h2
            injection h2 with hvB hst2
            injection h3 with h3
            injection h3 with hvB0 hst3
            have ht := hvB.symm.trans hvB0
            simp only [Prod.mk.injEq] at ht
            exact ht.1
          | none =>
            rw [hB] at h2 h3
            dsimp only at h2 h3
            rw [insert_into_cache_indexed_eq] at h2 h3
            dsimp only at h2
            cases hcB : computeGlyphIndexed tri st.font b flat with
            | error e => rw [hcB] at h3; cases h3
            | ok rB =>
              rw [hcB] at h2 h3
              dsimp only at h2 h3
              injection h2 with h2
              injection h2 with hvB hst2
              injection h3 with h3
              injection h3 with hvB0 hst3
              have ht := hvB.symm.trans hvB0
              simp only [Prod.mk.injEq] at ht
              exact ht.1
  have hmain :
      ((generate_text_section_indexed tri st [a, b] flat T).toOption.map
          fun r => r.1.indices) =
        some (iA ++ iB.map fun i =>
          i + (match iterMax iA with | some m => m + 1 | none => 0)) := by
    simp only [generate_text_section_indexed,
      generate_glyph_with_glam_transform_indexed, text_section_indexed_go,
      h1, h2, text_mesh_from_data_indexed, Except.toOption, Option.map]
  refine ⟨hBeq, hmain, fun hAnil => ?_⟩
  subst hAnil
  rw [hmain, hBeq]
  simp [iterMax]

/-- Concrete indexed cache entry produced for the triangle font. -/
def wEntry : IndexedMeshC :=
  ([0, 1, 2], [⟨0, 0, 0⟩, ⟨1, 0, 0⟩, ⟨0, 1, 0⟩], ⟨⟨0, 0, 0⟩, ⟨0, 0, 0⟩⟩)

/-- Fresh generator over the triangle font. -/
def wSt : GenState := genOf fontTri true

/-- Generator after loading the glyph `A` (indexed, flat). -/
def wSt1 : GenState := { wSt with indexedCache := [(String.mk ['A'], wEntry)] }

/-- Generator after loading `A` then `B`. -/
def wSt2 : GenState :=
  { wSt with indexedCache :=
      [(String.mk ['B'], wEntry), (String.mk ['A'], wEntry)] }

/-- Generator after loading only `B`. -/
def wSt3 : GenState := { wSt with indexedCache := [(String.mk ['B'], wEntry)] }

/-- Witness for C3 at the triangle font with the section `AB`. -/
theorem text_section_index_offsets_witness :
    load_from_cache_indexed triOk wSt 'A' true =
      .ok (([0, 1, 2], [⟨0, 0, 0⟩, ⟨1, 0, 0⟩, ⟨0, 1, 0⟩],
        ⟨⟨0, 0, 0⟩, ⟨0, 0, 0⟩⟩), wSt1) ∧
    load_from_cache_indexed triOk wSt1 'B' true =
      .ok (([0, 1, 2], [⟨0, 0, 0⟩, ⟨1, 0, 0⟩, ⟨0, 1, 0⟩],
        ⟨⟨0, 0, 0⟩, ⟨0, 0, 0⟩⟩), wSt2) ∧
    load_from_cache_indexed triOk wSt 'B' true =
      .ok (([0, 1, 2], [⟨0, 0, 0⟩, ⟨1, 0, 0⟩, ⟨0, 1, 0⟩],
        ⟨⟨0, 0, 0⟩, ⟨0, 0, 0⟩⟩), wSt3) ∧
    (([0, 1, 2] : List Nat) = [0, 1, 2] ∧
     ((generate_text_section_indexed triOk wSt ['A', 'B'] true none).toOption.map
         fun r => r.1.indices) =
       some ([0, 1, 2] ++ ([0, 1, 2] : List Nat).map fun i =>
         i + (match iterMax [0, 1, 2] with | some m => m + 1 | none => 0)) ∧
     (([0, 1, 2] : List Nat) = [] →
       ((generate_text_section_indexed triOk wSt ['A', 'B'] true none).toOption.map
           fun r => r.1.indices) = some [0, 1, 2])) := by
  have hw1 : load_from_cache_indexed triOk wSt 'A' true =
      .ok (([0, 1, 2], [⟨0, 0, 0⟩, ⟨1, 0, 0⟩, ⟨0, 1, 0⟩],
        ⟨⟨0, 0, 0⟩, ⟨0, 0, 0⟩⟩), wSt1) := by
    simp [load_from_cache_indexed, cacheLookup, insert_into_cache_indexed,
      raster_to_mesh_indexed, get_glyph_area_triangulation, collectEdges,
      contourEdges, triangulate_between_edges_indexed, pointAt,
      glyph_id_of_char, genOf, fontTri, triOk, triangleOutline, keyOf,
      cacheInsert, wSt, wSt1, wEntry, List.find?]
  have hw2 : load_from_cache_indexed triOk wSt1 'B' true =
      .ok (([0, 1, 2], [⟨0, 0, 0⟩, ⟨1, 0, 0⟩, ⟨0, 1, 0⟩],
        ⟨⟨0, 0, 0⟩, ⟨0, 0, 0⟩⟩), wSt2) := by
    simp [load_from_cache_indexed, cacheLookup, insert_into_cache_indexed,
      raster_to_mesh_indexed, get_glyph_area_triangulation, collectEdges,
      contourEdges, triangulate_between_edges_indexed, pointAt,
      glyph_id_of_char, genOf, fontTri, triOk, triangleOutline, keyOf,
      cacheInsert, wSt, wSt1, wSt2, wEntry, List.find?]
  have hw3 : load_from_cache_indexed triOk wSt 'B' true =
      .ok (([0, 1, 2], [⟨0, 0, 0⟩, ⟨1, 0, 0⟩, ⟨0, 1, 0⟩],
        ⟨⟨0, 0, 0⟩, ⟨0, 0, 0⟩⟩), wSt3) := by
    simp [load_from_cache_indexed, cacheLookup, insert_into_cache_indexed,
      raster_to_mesh_indexed, get_glyph_area_triangulation, collectEdges,
      contourEdges, triangulate_between_edges_indexed, pointAt,
      glyph_id_of_char, genOf, fontTri, triOk, triangleOutline, keyOf,
      cacheInsert, wSt, wSt3, wEntry, List.find?]
  exact ⟨hw1, hw2, hw3,
    text_section_index_offsets triOk wSt 'A' 'B' true none
      [0, 1, 2] [⟨0, 0, 0⟩, ⟨1, 0, 0⟩, ⟨0, 1, 0⟩] ⟨⟨0, 0, 0⟩, ⟨0, 0, 0⟩⟩ wSt1
      [0, 1, 2] [⟨0, 0, 0⟩, ⟨1, 0, 0⟩, ⟨0, 1, 0⟩] ⟨⟨0, 0, 0⟩, ⟨0, 0, 0⟩⟩ wSt2
      [0, 1, 2] [⟨0, 0, 0⟩, ⟨1, 0, 0⟩, ⟨0, 1, 0⟩] ⟨⟨0, 0, 0⟩, ⟨0, 0, 0⟩⟩ wSt3
      hw1 hw2 hw3⟩

/-- A raw buffer with an even number of components converts without
panicking. -/
lemma glam_3d_vecs_from_raw_2d_total (l : List ℚ) (h : 2 ∣ l.length) :
    ∃ vs, glam_3d_vecs_from_raw_2d l = some vs := by
  obtain ⟨n, hn⟩ := h
  induction n generalizing l with
  | zero =>
    cases l with
    | nil => exact ⟨[], rfl⟩
    | cons x l' => simp at hn
  | succ n ih =>
    cases l with
    | nil => simp at hn
    | cons x l' =>
      cases l' with
      | nil => simp at hn; omega
      | cons y rest =>
        have hr : rest.length = 2 * n := by
          simp only [List.length_cons] at hn; omega
        obtain ⟨vs, hvs⟩ := ih rest hr
        exact ⟨⟨x, y, 0⟩ :: vs, by simp [glam_3d_vecs_from_raw_2d, hvs]⟩

/-- A raw buffer with a multiple of three components converts without
panicking. -/
lemma glam_vecs_from_raw_total (l : List ℚ) (h : 3 ∣ l.length) :
    ∃ vs, glam_vecs_from_raw l = some vs := by
  obtain ⟨n, hn⟩ := h
  induction n generalizing l with
  | zero =>
    cases l with
    | nil => exact ⟨[], rfl⟩
    | cons x l' => simp at hn
  | succ n ih =>
    cases l with
    | nil => simp at hn
    | cons x l' =>
      cases l' with
      | nil => simp at hn; omega
      | cons y l'' =>
        cases l'' with
        | nil => simp at hn; omega
        | cons z rest =>
          have hr : rest.length = 3 * n := by
            simp only [List.length_cons] at hn; omega
          obtain ⟨vs, hvs⟩ := ih rest hr
          exact ⟨⟨x, y, z⟩ :: vs, by simp [glam_vecs_from_raw, hvs]⟩

/-- C9 (amended): for every mesh whose raw vertex buffer parses into whole
vertices (length a multiple of 2 when flat, of 3 otherwise),
`precache_custom_glyph` returns `Ok` without validating anything further and
unconditionally inserts the converted mesh into the corresponding cache map
under the key convention, for every generator state — in particular also
when the generator was constructed without caching. -/
theorem precache_custom_glyph_inserts (st : GenState) (glyph : Char)
    (flat : Bool) (mesh : TriangleMeshM)
    (hdiv : (if flat then 2 else 3) ∣ mesh.vertices.length) :
    ∃ st', precache_custom_glyph st glyph flat mesh = some (.ok st') ∧
      st'.useCache = st.useCache ∧ st'.font = st.font ∧
      st'.quality = st.quality ∧
      (match mesh.indices with
       | some idx =>
         st'.cache = st.cache ∧
         ∃ vs, st'.indexedCache =
           cacheInsert st.indexedCache (keyOf glyph flat) (idx, vs, mesh.bbox)
       | none =>
         st'.indexedCache = st.indexedCache ∧
         ∃ vs, st'.cache =
           cacheInsert st.cache (keyOf glyph flat) (vs, mesh.bbox)) := by
  cases hidx : mesh.indices with
  | some idx =>
    cases flat with
    | true =>
      obtain ⟨vs, hvs⟩ :=
        glam_3d_vecs_from_raw_2d_total mesh.vertices (by simpa using hdiv)
      refine ⟨{ st with
          indexedCache :=
            cacheInsert st.indexedCache (keyOf glyph true) (idx, vs, mesh.bbox) },
        ?_, rfl, rfl, rfl, ?_⟩
      · simp [precache_custom_glyph, hidx, hvs]
      · simp only [hidx]
        exact ⟨trivial, vs, rfl⟩
    | false =>
      obtain ⟨vs, hvs⟩ :=
        glam_vecs_from_raw_total mesh.vertices (by simpa using hdiv)
      refine ⟨{ st with
          indexedCache :=
            cacheInsert st.indexedCache (keyOf glyph false) (idx, vs, mesh.bbox) },
        ?_, rfl, rfl, rfl, ?_⟩
      · simp [precache_custom_glyph, hidx, hvs]
      · simp only [hidx]
        exact ⟨trivial, vs, rfl⟩
  | none =>
    cases flat with
    | true =>
      obtain ⟨vs, hvs⟩ :=
        glam_3d_vecs_from_raw_2d_total mesh.vertices (by simpa using hdiv)
      refine ⟨{ st with
          cache := cacheInsert st.cache (keyOf glyph true) (vs, mesh.bbox) },
        ?_, rfl, rfl, rfl, ?_⟩
      · simp [precache_custom_glyph, hidx, hvs]
      · simp only [hidx]
        exact ⟨trivial, vs, rfl⟩
    | false =>
      obtain ⟨vs, hvs⟩ :=
        glam_vecs_from_raw_total mesh.vertices (by simpa using hdiv)
      refine ⟨{ st with
          cache := cacheInsert st.cache (keyOf glyph false) (vs, mesh.bbox) },
        ?_, rfl, rfl, rfl, ?_⟩
      · simp [precache_custom_glyph, hidx, hvs]
      · simp only [hidx]
        exact ⟨trivial, vs, rfl⟩

/-- A well-formed flat custom mesh with two 2-component vertices. -/
def flatPairMesh : TriangleMeshM := ⟨none, [1, 2, 3, 4], ⟨⟨0, 0, 0⟩, ⟨0, 0, 0⟩⟩⟩

/-- Witness for the amended C9, on a generator constructed without
caching. -/
theorem precache_custom_glyph_inserts_witness :
    ((if true then 2 else 3) ∣ flatPairMesh.vertices.length) ∧
    (∃ st', precache_custom_glyph (genOf fontTrivial false) 'A' true
        flatPairMesh = some (.ok st') ∧
      st'.useCache = (genOf fontTrivial false).useCache ∧
      st'.font = (genOf fontTrivial false).font ∧
      st'.quality = (genOf fontTrivial false).quality ∧
      (match flatPairMesh.indices with
       | some idx =>
         st'.cache = (genOf fontTrivial false).cache ∧
         ∃ vs, st'.indexedCache =
           cacheInsert (genOf fontTrivial false).indexedCache (keyOf 'A' true)
             (idx, vs, flatPairMesh.bbox)
       | none =>
         st'.indexedCache = (genOf fontTrivial false).indexedCache ∧
         ∃ vs, st'.cache =
           cacheInsert (genOf fontTrivial false).cache (keyOf 'A' true)
             (vs, flatPairMesh.bbox))) :=
  ⟨by norm_num [flatPairMesh],
   precache_custom_glyph_inserts (genOf fontTrivial false) 'A' true
     flatPairMesh (by norm_num [flatPairMesh])⟩

end Meshtext
